import Mathlib

/-!
Verification of the smart-grid telemetry dashboard (`eliademo`).

The embedding below follows the repository sources:
* `frontend/src/App.tsx` — the dashboard: data fetching and sorting,
  WebSocket merge, the anomaly-evaluation effect, the record-details status,
  the delete handler and the report dialog.
* `db/init.sql` — the persisted schema (`grid_data` table) and the seeded rows.

Numeric measurement values (`REAL` columns, JS numbers) are modelled as
rationals; timestamps are modelled by their parsed time value (the code always
compares timestamps through `new Date(ts).getTime()`), an integer.
-/

namespace Eliademo

/-- A telemetry sample as the frontend sees it: the `GridData` interface of
`App.tsx` (fields `id`, `timestamp`, `voltage`, `current`, `frequency`).
The `timestamp` field holds the parsed time value of the ISO string, since the
code only ever uses `new Date(item.timestamp).getTime()` for comparisons. -/
structure GridData where
  id : Nat
  timestamp : Int
  voltage : ℚ
  current : ℚ
  frequency : ℚ
deriving DecidableEq

/-- `latestRecord.voltage < 215 || latestRecord.voltage > 245`
(App.tsx line 167, and the identical check in the Record Details dialog,
App.tsx line 468). -/
def isVoltageAnomaly (r : GridData) : Bool :=
  r.voltage < 215 || r.voltage > 245

/-- `latestRecord.current > 20` (App.tsx line 168, and App.tsx line 468). -/
def isCurrentAnomaly (r : GridData) : Bool :=
  r.current > 20

/-- The anomaly verdict: `isVoltageAnomaly || isCurrentAnomaly`
(App.tsx line 170; the Record Details status check at App.tsx line 468 is the
same disjunction written out). -/
def anomalyVerdict (r : GridData) : Bool :=
  isVoltageAnomaly r || isCurrentAnomaly r

/-- C1: the anomaly verdict is positive exactly when `voltage < 215` or
`voltage > 245` or `current > 20`; a sample with voltage in `[215, 245]` and
current `≤ 20` — the boundary values included — is judged normal. -/
theorem anomalyVerdict_characterization (r : GridData) :
    (anomalyVerdict r = true ↔
      (r.voltage < 215 ∨ 245 < r.voltage ∨ 20 < r.current)) ∧
    (215 ≤ r.voltage → r.voltage ≤ 245 → r.current ≤ 20 →
      anomalyVerdict r = false) := by
  constructor
  · simp [anomalyVerdict, isVoltageAnomaly, isCurrentAnomaly, or_assoc]
  · intro h1 h2 h3
    simp [anomalyVerdict, isVoltageAnomaly, isCurrentAnomaly]
    exact ⟨⟨h1, h2⟩, h3⟩

/-- Witness for C1: the boundary sample (voltage 215, current 20) is judged
normal, and a sample with voltage 214 is judged anomalous. -/
theorem anomalyVerdict_characterization_witness :
    anomalyVerdict ⟨1, 0, 215, 20, 50⟩ = false ∧
    anomalyVerdict ⟨2, 0, 214, 10, 50⟩ = true := by
  refine ⟨(anomalyVerdict_characterization ⟨1, 0, 215, 20, 50⟩).2 (by norm_num)
    (by norm_num) (by norm_num), ?_⟩
  exact (anomalyVerdict_characterization ⟨2, 0, 214, 10, 50⟩).1.mpr
    (Or.inl (by norm_num))

/-- The voltage reason segment appended to the anomaly message:
`Voltage: ...V. ` (App.tsx line 172). -/
def voltageReason (r : GridData) : String :=
  "Voltage: " ++ toString r.voltage ++ "V. "

/-- The current reason segment appended to the anomaly message:
`Current: ...A.` (App.tsx line 173). -/
def currentReason (r : GridData) : String :=
  "Current: " ++ toString r.current ++ "A."

/-- The reasons of the verdict, as the sequence of segments the code appends to
the message — one per triggered condition, voltage first then current
(App.tsx lines 171-173). -/
def anomalyReasons (r : GridData) : List String :=
  (if isVoltageAnomaly r then [voltageReason r] else []) ++
    (if isCurrentAnomaly r then [currentReason r] else [])

/-- The anomaly message built at App.tsx lines 171-174:
`Anomaly Detected: ` followed by the triggered reason segments in order. -/
def anomalyMessageOf (r : GridData) : String :=
  "Anomaly Detected: " ++ String.join (anomalyReasons r)

/-- The dashboard's anomaly state: the `isAnomaly` and `anomalyMessage`
pieces of React state (App.tsx lines 90-91). -/
structure AnomState where
  isAnomaly : Bool
  message : String
deriving DecidableEq

/-- The state the anomaly effect writes for one evaluated sample: message and
flag set on anomaly, cleared otherwise (App.tsx lines 170-179). -/
def anomalyStateOf (r : GridData) : AnomState :=
  if anomalyVerdict r then ⟨true, anomalyMessageOf r⟩ else ⟨false, ""⟩

/-- The anomaly-evaluation effect (App.tsx lines 164-181): when `data` is
non-empty it evaluates only `data[data.length - 1]` and overwrites the anomaly
state; when `data` is empty it leaves the state unchanged. -/
def evalAnomalyEffect (data : List GridData) (st : AnomState) : AnomState :=
  match data.getLast? with
  | some latest => anomalyStateOf latest
  | none => st

/-- C6: for an anomalous sample the reasons are exactly the triggered
conditions, voltage first then current; `{voltage 200, current 25}` yields both
reasons with voltage listed first. -/
theorem anomalyReasons_exact (r : GridData) :
    (isVoltageAnomaly r = true → isCurrentAnomaly r = true →
      anomalyReasons r = [voltageReason r, currentReason r]) ∧
    (isVoltageAnomaly r = true → isCurrentAnomaly r = false →
      anomalyReasons r = [voltageReason r]) ∧
    (isVoltageAnomaly r = false → isCurrentAnomaly r = true →
      anomalyReasons r = [currentReason r]) ∧
    (isVoltageAnomaly r = false → isCurrentAnomaly r = false →
      anomalyReasons r = []) ∧
    anomalyReasons ⟨0, 0, 200, 25, 50⟩ =
      ["Voltage: 200V. ", "Current: 25A."] := by
  refine ⟨?_, ?_, ?_, ?_, by decide⟩ <;>
    · intro h1 h2
      simp [anomalyReasons, h1, h2]

/-- Witness for C6: the sample with voltage 200 and current 25 triggers both
checks, and its reasons list both conditions with voltage first. -/
theorem anomalyReasons_exact_witness :
    anomalyReasons ⟨0, 0, 200, 25, 50⟩ =
      [voltageReason ⟨0, 0, 200, 25, 50⟩, currentReason ⟨0, 0, 200, 25, 50⟩] :=
  (anomalyReasons_exact ⟨0, 0, 200, 25, 50⟩).1 (by decide) (by decide)

/-- Whether the anomaly warning banner is rendered: the `{isAnomaly && ...}`
guard around the `Alert` (App.tsx lines 433-448); the banner text is the
`anomalyMessage` state. -/
def bannerShown (st : AnomState) : Bool :=
  st.isAnomaly

/-- C9: once the sample list becomes empty (e.g. after delete-all), the effect
leaves the anomaly flag and message unchanged, so the warning banner of the
last non-empty state — here an anomalous latest sample — is still shown with
the same message. -/
theorem anomalyBanner_persists (seen : List GridData) (s : GridData)
    (st : AnomState) (h : anomalyVerdict s = true) :
    evalAnomalyEffect [] (evalAnomalyEffect (seen ++ [s]) st) =
      evalAnomalyEffect (seen ++ [s]) st ∧
    bannerShown (evalAnomalyEffect [] (evalAnomalyEffect (seen ++ [s]) st)) =
      true ∧
    (evalAnomalyEffect [] (evalAnomalyEffect (seen ++ [s]) st)).message =
      anomalyMessageOf s := by
  have hlast : evalAnomalyEffect (seen ++ [s]) st = anomalyStateOf s := by
    simp [evalAnomalyEffect, List.getLast?_concat]
  have hempty : ∀ st' : AnomState, evalAnomalyEffect [] st' = st' := by
    intro st'; rfl
  rw [hlast, hempty, anomalyStateOf, if_pos h]
  exact ⟨rfl, rfl, rfl⟩

/-- Witness for C9: after an anomalous sample (voltage 250) the banner stays
shown, with the same message, when the effect runs on the emptied list. -/
theorem anomalyBanner_persists_witness :
    bannerShown (evalAnomalyEffect []
      (evalAnomalyEffect ([] ++ [(⟨7, 0, 250, 10, 50⟩ : GridData)])
        ⟨false, ""⟩)) = true :=
  (anomalyBanner_persists [] ⟨7, 0, 250, 10, 50⟩ ⟨false, ""⟩ (by decide)).2.1

/-- The comparison key of the sort comparator
`(a, b) => new Date(a.timestamp).getTime() - new Date(b.timestamp).getTime()`
(App.tsx lines 118 and 142): samples ordered by parsed timestamp. -/
def tsLE (a b : GridData) : Prop :=
  a.timestamp ≤ b.timestamp

instance : DecidableRel tsLE := fun a b => Int.decLe a.timestamp b.timestamp

instance : IsTotal GridData tsLE :=
  ⟨fun a b => Int.le_total a.timestamp b.timestamp⟩

instance : IsTrans GridData tsLE :=
  ⟨fun _ _ _ hab hbc => Int.le_trans hab hbc⟩

/-- The sort applied to query results (App.tsx line 118) and to the merged
list after a WebSocket push (App.tsx line 142): the ECMAScript `Array.sort`
with the timestamp comparator is a stable sort, and a stable sort's output is
determined by the comparator, so we model it with `List.insertionSort`, which
is stable. -/
def sortByTimestamp (l : List GridData) : List GridData :=
  List.insertionSort tsLE l

/-- C3: every returned sequence — all samples or a time range, `fetchData` or
the WebSocket merge — is ordered by timestamp ascending and is a permutation
of its input, whatever the underlying `id` order; in particular a backfilled
sample with an earlier timestamp but a later id sorts before a sample with a
later timestamp and smaller id. -/
theorem sortByTimestamp_sorted (result : List GridData) :
    List.Pairwise (fun a b : GridData => a.timestamp ≤ b.timestamp)
      (sortByTimestamp result) ∧
    (sortByTimestamp result).Perm result ∧
    sortByTimestamp [⟨1, 10, 230, 10, 50⟩, ⟨2, 5, 230, 10, 50⟩] =
      [⟨2, 5, 230, 10, 50⟩, ⟨1, 10, 230, 10, 50⟩] := by
  refine ⟨?_, List.perm_insertionSort tsLE result, by decide⟩
  exact List.sorted_insertionSort tsLE result

/-- The sample list after one pushed sample is merged in, as `ws.onmessage`
builds it: `[...prevData, newData]` re-sorted by timestamp
(App.tsx lines 141-144). -/
def mergePush (data : List GridData) (s : GridData) : List GridData :=
  sortByTimestamp (data ++ [s])

/-- The anomaly states produced as pushed samples arrive one by one: each
arrival is merged by `mergePush` and the anomaly effect (App.tsx lines
164-181) then runs on the merged list; `st` is the anomaly state and `data`
the current sample list. -/
def pushTrace (st : AnomState) (data rest : List GridData) : List AnomState :=
  match rest with
  | [] => []
  | s :: rest' =>
    pushTrace (evalAnomalyEffect (mergePush data s) st) (mergePush data s) rest'
      |>.cons (evalAnomalyEffect (mergePush data s) st)

/-- Inserting a sample that sorts no later than the list's last element keeps
that last element last. -/
theorem orderedInsert_getLast (x s : GridData) (hx : tsLE x s) :
    ∀ l : List GridData, l.getLast? = some s →
      (List.orderedInsert tsLE x l).getLast? = some s := by
  intro l
  induction l with
  | nil => intro h; simp at h
  | cons y t ih =>
    intro h
    by_cases hxy : tsLE x y
    · simp only [List.orderedInsert]
      rw [if_pos hxy, List.getLast?_cons_cons]
      exact h
    · simp only [List.orderedInsert]
      rw [if_neg hxy]
      cases t with
      | nil =>
        simp only [List.getLast?_singleton, Option.some.injEq] at h
        subst h
        exact absurd hx hxy
      | cons z t' =>
        rw [List.getLast?_cons_cons] at h
        obtain ⟨ys, hys⟩ := List.getLast?_eq_some_iff.mp (ih h)
        rw [hys, ← List.cons_append]
        exact List.getLast?_concat _

/-- A pushed sample whose timestamp is no earlier than every sample already
in the list lands last after the timestamp re-sort. -/
theorem mergePush_getLast (data : List GridData) (s : GridData)
    (h : ∀ y ∈ data, tsLE y s) :
    (mergePush data s).getLast? = some s := by
  induction data with
  | nil => rfl
  | cons x data' ih =>
    have hx : tsLE x s := h x (by simp)
    have hrec : (sortByTimestamp (data' ++ [s])).getLast? = some s :=
      ih (fun y hy => h y (by simp [hy]))
    show (List.orderedInsert tsLE x
      (List.insertionSort tsLE (data' ++ [s]))).getLast? = some s
    exact orderedInsert_getLast x s hx _ hrec

/-- C7 counterexample: a backfilled pushed sample is never evaluated. The
list holds one normal sample with timestamp 100; a sample with the earlier
timestamp 50 and anomalous voltage 250 is pushed. After the re-sort of
App.tsx line 142 it is not `data[data.length - 1]`, so the effect re-evaluates
the old latest sample: the anomaly state stays `⟨false, empty⟩` and the new
anomalous sample produces no report. -/
theorem backfilledPush_never_evaluated :
    anomalyVerdict ⟨2, 50, 250, 10, 50⟩ = true ∧
    evalAnomalyEffect
      (mergePush [⟨1, 100, 230, 10, 50⟩] ⟨2, 50, 250, 10, 50⟩)
      ⟨false, ""⟩ = ⟨false, ""⟩ ∧
    evalAnomalyEffect
      (mergePush [⟨1, 100, 230, 10, 50⟩] ⟨2, 50, 250, 10, 50⟩)
      ⟨false, ""⟩ ≠ anomalyStateOf ⟨2, 50, 250, 10, 50⟩ := by
  decide

/-- C7 amended: a newly pushed sample whose timestamp is no earlier than
every sample already in the list — so it lands last after the timestamp
re-sort — is evaluated on its own, independently of the other samples and of
the previous anomaly state; a stream of such arrivals, timestamps
nondecreasing, yields one report per sample with no suppression. (A
backfilled push with an earlier timestamp is never evaluated: the effect
re-evaluates the old latest sample.) -/
theorem anomalyEffect_latest_arrival :
    (∀ (data : List GridData) (s : GridData) (st : AnomState),
      (∀ y ∈ data, y.timestamp ≤ s.timestamp) →
      evalAnomalyEffect (mergePush data s) st = anomalyStateOf s) ∧
    (∀ (rest data : List GridData) (st : AnomState),
      rest.Pairwise (fun a b : GridData => a.timestamp ≤ b.timestamp) →
      (∀ y ∈ data, ∀ u ∈ rest, y.timestamp ≤ u.timestamp) →
      pushTrace st data rest = rest.map anomalyStateOf) := by
  have hmain : ∀ (data : List GridData) (s : GridData) (st : AnomState),
      (∀ y ∈ data, y.timestamp ≤ s.timestamp) →
      evalAnomalyEffect (mergePush data s) st = anomalyStateOf s := by
    intro data s st h
    have hlast : (mergePush data s).getLast? = some s :=
      mergePush_getLast data s h
    simp [evalAnomalyEffect, hlast]
  refine ⟨hmain, ?_⟩
  intro rest
  induction rest with
  | nil => intro data st _ _; rfl
  | cons u rest' ih =>
    intro data st hpair hge
    have h1 : ∀ y ∈ data, y.timestamp ≤ u.timestamp :=
      fun y hy => hge y hy u (by simp)
    have hu := hmain data u st h1
    simp only [pushTrace, List.map, hu, List.cons.injEq]
    refine ⟨trivial, ?_⟩
    apply ih
    · exact (List.pairwise_cons.mp hpair).2
    · intro y hy v hv
      have hy' : y ∈ data ++ [u] :=
        (List.perm_insertionSort tsLE (data ++ [u])).mem_iff.mp hy
      rcases List.mem_append.mp hy' with hyd | hyu
      · exact hge y hyd v (List.mem_cons_of_mem u hv)
      · have hyu' : y = u := by simpa using hyu
        subst hyu'
        exact (List.pairwise_cons.mp hpair).1 v hv

/-- Witness for C7 amended: a pushed sample with the latest timestamp (200)
and anomalous voltage 250, arriving over a list holding one earlier sample,
gets its own report. -/
theorem anomalyEffect_latest_arrival_witness :
    evalAnomalyEffect
      (mergePush [(⟨1, 100, 230, 10, 50⟩ : GridData)] ⟨2, 200, 250, 10, 50⟩)
      ⟨false, ""⟩ = anomalyStateOf ⟨2, 200, 250, 10, 50⟩ :=
  anomalyEffect_latest_arrival.1 [⟨1, 100, 230, 10, 50⟩] ⟨2, 200, 250, 10, 50⟩
    ⟨false, ""⟩ (by decide)

/-- An event the dashboard client processes: the resolved history query
(`fetchData`, App.tsx lines 98-126) or one pushed sample from the live feed
(`ws.onmessage`, App.tsx lines 139-145). -/
inductive ClientEvent where
  | fetchResponse (result : List GridData)
  | push (s : GridData)
deriving DecidableEq

/-- How one event updates the dashboard's sample list: a query response
replaces the whole list with the sorted result (`setData(sortedData)`,
App.tsx line 119); a pushed sample is appended and the list re-sorted
(`[...prevData, newData].sort(...)`, App.tsx line 142). Neither path
deduplicates by `id`. -/
def applyEvent (data : List GridData) (e : ClientEvent) : List GridData :=
  match e with
  | .fetchResponse result => sortByTimestamp result
  | .push s => sortByTimestamp (data ++ [s])

/-- The sample list after the client processes `events` in order, starting
from the initial empty state (App.tsx line 85). -/
def runClient (events : List ClientEvent) : List GridData :=
  events.foldl applyEvent []

/-- How many samples with id `i` the list holds. -/
def countById (i : Nat) (l : List GridData) : Nat :=
  l.countP (fun r => r.id == i)

/-- First seeded sample, committed before the client's query was served. -/
def sampleA : GridData := ⟨1, 100, 230, 10, 50⟩

/-- Sample committed between the client's subscribe and the serving of its
query: it is in the query result and is also pushed on the live feed. -/
def sampleB : GridData := ⟨2, 200, 231, 11, 50⟩

/-- Sample committed after the client's query was served: it is pushed on the
live feed but absent from the query result. -/
def sampleC : GridData := ⟨3, 300, 232, 12, 50⟩

/-- C2 counterexample: the merge of query results and pushed notifications is
not exactly-once. With committed history `[A, B]`, a client that subscribed
between `A` and `B` and whose query was served after `B` can receive the push
of `B` after the query response: `B` then appears twice. And with history
`[A, B, C]` where `C` was committed after the query was served, the push of
`C` can arrive before the query response, whose processing then overwrites the
list: `C` is silently skipped. -/
theorem clientMerge_not_exactly_once :
    countById 2 (runClient
      [ClientEvent.fetchResponse [sampleA, sampleB],
       ClientEvent.push sampleB]) = 2 ∧
    countById 2 [sampleA, sampleB] = 1 ∧
    countById 3 (runClient
      [ClientEvent.push sampleC,
       ClientEvent.fetchResponse [sampleA, sampleB]]) = 0 ∧
    countById 3 [sampleA, sampleB, sampleC] = 1 := by
  decide

/-- The sample lists a fold of push events produces are, up to permutation,
the starting list followed by the pushed samples. -/
theorem foldl_push_perm (pushes : List GridData) :
    ∀ data : List GridData,
      (List.foldl applyEvent data (pushes.map ClientEvent.push)).Perm
        (data ++ pushes) := by
  induction pushes with
  | nil => intro data; simp
  | cons p ps ih =>
    intro data
    simp only [List.map, List.foldl, applyEvent]
    refine ((ih (sortByTimestamp (data ++ [p]))).trans ?_)
    have h1 : (sortByTimestamp (data ++ [p])).Perm (data ++ [p]) :=
      List.perm_insertionSort tsLE (data ++ [p])
    have h2 := h1.append_right ps
    have h3 : (data ++ [p]) ++ ps = data ++ (p :: ps) := by simp
    exact h3 ▸ h2

/-- In a list whose ids are pairwise distinct, each member's id occurs once. -/
theorem countById_eq_one_of_nodup (l : List GridData)
    (h : l.Pairwise (fun a b => a.id ≠ b.id)) :
    ∀ s ∈ l, countById s.id l = 1 := by
  induction l with
  | nil => intro s hs; cases hs
  | cons x xs ih =>
    intro s hs
    have hhead := (List.pairwise_cons.mp h).1
    have htail := (List.pairwise_cons.mp h).2
    rcases List.mem_cons.mp hs with rfl | hmem
    · have hx : List.countP (fun r => r.id == s.id) xs = 0 := by
        apply List.countP_eq_zero.mpr
        intro a ha
        simp only [beq_iff_eq]
        exact Ne.symm (hhead a ha)
      simp [countById, List.countP_cons, hx]
    · have hone := ih htail s hmem
      have hne : (x.id == s.id) = false := by
        simp only [beq_eq_false_iff_ne, ne_eq]
        exact hhead s hmem
      simp only [countById, List.countP_cons, hne] at hone ⊢
      simp [hone]

/-- C2 amended: for a client that first queries and then subscribes, the
merged sample list contains every committed sample exactly once, provided the
query response is processed before every pushed sample, no sample is both in
the query result and pushed, and ids are pairwise distinct — without these
provisos a sample can be duplicated or skipped. -/
theorem clientMerge_exactly_once (hist pushes : List GridData)
    (hnodup : (hist ++ pushes).Pairwise (fun a b => a.id ≠ b.id)) :
    ∀ s ∈ hist ++ pushes,
      countById s.id
        (runClient (ClientEvent.fetchResponse hist ::
          pushes.map ClientEvent.push)) = 1 := by
  intro s hs
  have hperm : (runClient (ClientEvent.fetchResponse hist ::
      pushes.map ClientEvent.push)).Perm (hist ++ pushes) := by
    have h0 : runClient (ClientEvent.fetchResponse hist ::
        pushes.map ClientEvent.push) =
        List.foldl applyEvent (sortByTimestamp hist)
          (pushes.map ClientEvent.push) := rfl
    rw [h0]
    refine (foldl_push_perm pushes (sortByTimestamp hist)).trans ?_
    exact (List.perm_insertionSort tsLE hist).append_right pushes
  rw [countById, hperm.countP_eq, ← countById]
  exact countById_eq_one_of_nodup (hist ++ pushes) hnodup s hs

/-- Witness for C2 amended: history `[A]`, one later pushed sample `C`,
processed after the response — each appears exactly once. -/
theorem clientMerge_exactly_once_witness :
    countById 3 (runClient
      [ClientEvent.fetchResponse [sampleA], ClientEvent.push sampleC]) = 1 :=
  clientMerge_exactly_once [sampleA] [sampleC] (by decide) sampleC (by decide)

/-- The query-service failures of the spec's error taxonomy (§7):
`InvalidRangeError` and `InvalidTimestampError`. -/
inductive QueryError where
  | invalidRange
  | invalidTimestamp
deriving DecidableEq

/-- Modelled from the spec: the backend's timestamp validation is not under
`src/` (only its frontend caller is); §6 specifies ISO-8601 timestamps and
§4.5 requires them "syntactically well-formed". A timestamp is modelled as
well-formed when it has the ISO-8601 shape `YYYY-MM-DDThh:mm:ss`; its value is
the digit fields read lexicographically, which orders well-formed timestamps
chronologically. -/
def parseTimestamp (s : String) : Option Int :=
  match s.toList with
  | [y1, y2, y3, y4, '-', mo1, mo2, '-', d1, d2, 'T',
     h1, h2, ':', mi1, mi2, ':', s1, s2] =>
    if [y1, y2, y3, y4, mo1, mo2, d1, d2, h1, h2, mi1, mi2, s1, s2].all
        Char.isDigit then
      let dv : Char → Nat := fun c => c.toNat - 48
      let y := ((dv y1 * 10 + dv y2) * 10 + dv y3) * 10 + dv y4
      let mo := dv mo1 * 10 + dv mo2
      let d := dv d1 * 10 + dv d2
      let h := dv h1 * 10 + dv h2
      let mi := dv mi1 * 10 + dv mi2
      let sec := dv s1 * 10 + dv s2
      some (Int.ofNat (((((y * 100 + mo) * 100 + d) * 100 + h) * 100 + mi)
        * 100 + sec))
    else none
  | _ => none

/-- Validation of one optional bound: absent is fine, present must parse
(spec §4.5: fails with `InvalidTimestampError` otherwise). -/
def parseBound (b : Option String) : Except QueryError (Option Int) :=
  match b with
  | none => .ok none
  | some s =>
    match parseTimestamp s with
    | some t => .ok (some t)
    | none => .error .invalidTimestamp

/-- Whether `t` lies within the (half-)open range: either bound may be absent
and means unbounded (spec §4.1 `scanRange`). -/
def inRange (lo hi : Option Int) (t : Int) : Bool :=
  (match lo with | some a => decide (a ≤ t) | none => true) &&
    (match hi with | some b => decide (t ≤ b) | none => true)

/-- The store's time-range scan: the committed samples whose timestamp lies in
the range (spec §4.1). -/
def scanRange (store : List GridData) (lo hi : Option Int) : List GridData :=
  store.filter (fun r => inRange lo hi r.timestamp)

/-- Modelled from the spec: the backend Query Service is not under `src/`
(only its frontend caller, `fetchData`, is). Per §4.5 it validates the
timestamps' syntax, validates `start ≤ end` when both bounds are given, and
only then delegates to the store scan. -/
def queryRange (store : List GridData) (s? e? : Option String) :
    Except QueryError (List GridData) :=
  match parseBound s?, parseBound e? with
  | .error e, _ => .error e
  | .ok _, .error e => .error e
  | .ok a, .ok b =>
    match a, b with
    | some x, some y =>
      if x ≤ y then .ok (scanRange store (some x) (some y))
      else .error .invalidRange
    | _, _ => .ok (scanRange store a b)

/-- C4: with both bounds given and `start > end` the query fails with
`InvalidRangeError` whatever the store holds (the store is never consulted);
a syntactically malformed timestamp — in either position — fails with
`InvalidTimestampError`; a well-formed empty range returns the empty
sequence, never an error. -/
theorem queryRange_validation :
    (∀ (store : List GridData) (s e : String) (ps pe : Int),
      parseTimestamp s = some ps → parseTimestamp e = some pe → pe < ps →
      queryRange store (some s) (some e) = .error .invalidRange) ∧
    (∀ (store : List GridData) (e? : Option String) (s : String),
      parseTimestamp s = none →
      queryRange store (some s) e? = .error .invalidTimestamp) ∧
    (∀ (store : List GridData) (s? : Option String) (e : String),
      (∀ t ∈ s?, parseTimestamp t ≠ none) → parseTimestamp e = none →
      queryRange store s? (some e) = .error .invalidTimestamp) ∧
    (∀ (store : List GridData) (s e : String) (ps pe : Int),
      parseTimestamp s = some ps → parseTimestamp e = some pe → ps ≤ pe →
      (∀ r ∈ store, ¬ (ps ≤ r.timestamp ∧ r.timestamp ≤ pe)) →
      queryRange store (some s) (some e) = .ok []) := by
  refine ⟨?_, ?_, ?_, ?_⟩
  · intro store s e ps pe hs he hlt
    simp [queryRange, parseBound, hs, he, not_le.mpr hlt]
  · intro store e? s hs
    simp [queryRange, parseBound, hs]
  · intro store s? e hs he
    match s? with
    | none => simp [queryRange, parseBound, he]
    | some t =>
      have ht := hs t (by simp)
      match htp : parseTimestamp t with
      | none => exact absurd htp ht
      | some pt => simp [queryRange, parseBound, he, htp]
  · intro store s e ps pe hs he hle hempty
    simp only [queryRange, parseBound, hs, he, if_pos hle]
    congr 1
    apply List.filter_eq_nil_iff.mpr
    intro r hr
    have := hempty r hr
    simp only [inRange, Bool.and_eq_true, decide_eq_true_eq]
    intro hcontra
    exact this ⟨hcontra.1, hcontra.2⟩

/-- Witness for C4: an inverted range is rejected with `InvalidRangeError`, a
malformed timestamp with `InvalidTimestampError`, and a well-formed range
containing no sample yields `ok []`. -/
theorem queryRange_validation_witness :
    queryRange [] (some "2024-01-02T03:04:05") (some "2024-01-01T00:00:00") =
      .error .invalidRange ∧
    queryRange [sampleA] (some "not-a-timestamp") none =
      .error .invalidTimestamp ∧
    queryRange [sampleA] (some "2024-01-01T00:00:00")
      (some "2024-01-02T00:00:00") = .ok [] := by
  refine ⟨queryRange_validation.1 [] _ _ 20240102030405 20240101000000
      (by decide) (by decide) (by decide),
    queryRange_validation.2.1 [sampleA] none _ (by decide), ?_⟩
  exact queryRange_validation.2.2.2 [sampleA] _ _ 20240101000000
    20240102000000 (by decide) (by decide) (by decide) (by decide)

/-- A persisted row of the `grid_data` table (db/init.sql lines 20-26):
`voltage` and `current` are required, `frequency` is nullable. -/
structure DbRow where
  id : Nat
  timestamp : Int
  voltage : ℚ
  current : ℚ
  frequency : Option ℚ
deriving DecidableEq

/-- The sample store: the committed rows in commit order, plus the state of
the `SERIAL` id sequence (db/init.sql line 21) — the next id it will hand
out. -/
structure SampleStore where
  rows : List DbRow
  nextId : Nat
deriving DecidableEq

/-- Modelled from the spec: the backend insert handler is not under `src/`;
per §4.1 an insert commits the sample with a store-assigned id, and the id
comes from the `SERIAL PRIMARY KEY` sequence of db/init.sql, which hands out
the next value and advances — `DELETE` does not rewind it. -/
def insertRow (st : SampleStore) (ts : Int) (v c : ℚ) (f : Option ℚ) :
    SampleStore × DbRow :=
  let r : DbRow := ⟨st.nextId, ts, v, c, f⟩
  (⟨st.rows ++ [r], st.nextId + 1⟩, r)

/-- Modelled from the spec: the backend delete handler (the frontend calls it
with `DELETE /data`, App.tsx lines 244-255) is not under `src/`; per §4.1
`deleteAll` removes every row and reports the count; the `SERIAL` sequence is
untouched. -/
def deleteAllRows (st : SampleStore) : SampleStore × Nat :=
  (⟨[], st.nextId⟩, st.rows.length)

/-- Modelled from the spec: `scanAll` returns the committed rows in ascending
id order (§4.1) — the commit order the store keeps. -/
def scanAll (st : SampleStore) : List DbRow :=
  st.rows

/-- One mutation of the store: an insert with the sample's payload, or the
bulk delete. -/
inductive StoreOp where
  | insert (ts : Int) (v c : ℚ) (f : Option ℚ)
  | deleteAll

/-- Executing one operation against the store. -/
def execOp (st : SampleStore) (op : StoreOp) : SampleStore :=
  match op with
  | .insert ts v c f => (insertRow st ts v c f).1
  | .deleteAll => (deleteAllRows st).1

/-- The ids the store hands out over a sequence of operations, in order. -/
def issuedIds (st : SampleStore) (ops : List StoreOp) : List Nat :=
  match ops with
  | [] => []
  | .insert ts v c f :: rest =>
    (insertRow st ts v c f).2.id :: issuedIds (execOp st (.insert ts v c f)) rest
  | .deleteAll :: rest => issuedIds (execOp st .deleteAll) rest

/-- The store as db/init.sql leaves it: the three seeded rows get ids 1-3 from
the `SERIAL` sequence (their timestamps default to the commit time `NOW()`,
left as parameters), and the sequence stands at 4. -/
def initStore (t1 t2 t3 : Int) : SampleStore :=
  ⟨[⟨1, t1, 230.1, 10.5, some 50.0⟩,
    ⟨2, t2, 231.5, 12.1, some 50.1⟩,
    ⟨3, t3, 229.8, 9.7, some 49.9⟩], 4⟩

/-- Every id issued over `ops` is at least the sequence's current value. -/
theorem issuedIds_lower_bound (ops : List StoreOp) :
    ∀ st : SampleStore, ∀ i ∈ issuedIds st ops, st.nextId ≤ i := by
  induction ops with
  | nil => intro st i hi; cases hi
  | cons op rest ih =>
    intro st i hi
    match op with
    | .insert ts v c f =>
      rcases List.mem_cons.mp hi with rfl | hmem
      · exact Nat.le_refl _
      · exact Nat.le_of_succ_le (ih _ i hmem)
    | .deleteAll =>
      simp only [issuedIds] at hi
      exact ih (execOp st .deleteAll) i hi

/-- The ids issued over any operation sequence are strictly increasing. -/
theorem issuedIds_strict_mono (ops : List StoreOp) :
    ∀ st : SampleStore, (issuedIds st ops).Pairwise (· < ·) := by
  induction ops with
  | nil => intro st; exact List.Pairwise.nil
  | cons op rest ih =>
    intro st
    match op with
    | .insert ts v c f =>
      refine List.pairwise_cons.mpr ⟨?_, ih _⟩
      intro j hj
      exact Nat.lt_of_succ_le (issuedIds_lower_bound rest _ j hj)
    | .deleteAll => exact ih _

/-- C5: `deleteAll` followed immediately by `scanAll` returns the empty
sequence, and over any operation sequence against the seeded store — bulk
deletes included, anywhere — the seeded ids followed by every id ever issued
form a strictly increasing chain: each insert after any `deleteAll` gets an id
strictly greater than every id issued before it, and no id is ever reused. -/
theorem store_deleteAll_fresh_ids :
    (∀ st : SampleStore, scanAll (deleteAllRows st).1 = []) ∧
    (∀ (t1 t2 t3 : Int) (ops : List StoreOp),
      ((initStore t1 t2 t3).rows.map DbRow.id ++
        issuedIds (initStore t1 t2 t3) ops).Pairwise (· < ·)) := by
  constructor
  · intro st; rfl
  · intro t1 t2 t3 ops
    have hlow := issuedIds_lower_bound ops (initStore t1 t2 t3)
    have hmono := issuedIds_strict_mono ops (initStore t1 t2 t3)
    have hmap : (initStore t1 t2 t3).rows.map DbRow.id = [1, 2, 3] := rfl
    rw [hmap]
    refine List.pairwise_append.mpr ⟨by decide, hmono, ?_⟩
    intro a ha b hb
    have ha3 : a ≤ 3 := by
      rcases List.mem_cons.mp ha with rfl | ha'
      · omega
      rcases List.mem_cons.mp ha' with rfl | ha''
      · omega
      rcases List.mem_cons.mp ha'' with rfl | ha'''
      · omega
      · cases ha'''
    have hb4 : 4 ≤ b := hlow b hb
    omega

/-- A column of a SQL table as db/init.sql declares it: its name, type, a
`NOT NULL` flag, whether it carries `DEFAULT NOW()`, and whether it is
auto-incrementing (`SERIAL`). -/
structure ColumnSpec where
  name : String
  sqlType : String
  notNull : Bool
  hasDefaultNow : Bool
  autoIncrement : Bool
deriving DecidableEq

/-- A table as db/init.sql declares it: columns in order, the primary-key
columns, and the column lists of the indexes that exist on it. -/
structure TableSpec where
  name : String
  columns : List ColumnSpec
  primaryKey : List String
  indexes : List (List String)
deriving DecidableEq

/-- The `grid_data` table transcribed from db/init.sql lines 20-26. `SERIAL
PRIMARY KEY` makes `id` auto-incrementing, non-null and backed by the
primary-key index; that index is the only one — the script contains no
`CREATE INDEX`, in particular none on `timestamp`. -/
def grid_data : TableSpec :=
  { name := "grid_data"
    columns :=
      [⟨"id", "SERIAL", true, false, true⟩,
       ⟨"timestamp", "TIMESTAMPTZ", false, true, false⟩,
       ⟨"voltage", "REAL", true, false, false⟩,
       ⟨"current", "REAL", true, false, false⟩,
       ⟨"frequency", "REAL", false, false, false⟩]
    primaryKey := ["id"]
    indexes := [["id"]] }

/-- The column of `t` named `n`, when it exists. -/
def getCol (t : TableSpec) (n : String) : Option ColumnSpec :=
  t.columns.find? (fun c => c.name == n)

/-- Whether some index on `t` leads with column `n`. -/
def columnIndexed (t : TableSpec) (n : String) : Bool :=
  t.indexes.any (fun ix => ix.head? == some n)

/-- The claim's description of the schema, stated in the spec's words (§6):
one samples table with `id` an auto-incrementing primary key, `timestamp`
indexed and defaulting to now, `voltage` and `current` required, `frequency`
optional. -/
def schemaAsClaimed (t : TableSpec) : Bool :=
  (t.columns.map ColumnSpec.name ==
    ["id", "timestamp", "voltage", "current", "frequency"]) &&
  ((getCol t "id").any (fun c => c.autoIncrement && c.notNull)) &&
  (t.primaryKey == ["id"]) &&
  ((getCol t "timestamp").any (fun c => c.hasDefaultNow)) &&
  columnIndexed t "timestamp" &&
  ((getCol t "voltage").any (fun c => c.notNull)) &&
  ((getCol t "current").any (fun c => c.notNull)) &&
  ((getCol t "frequency").any (fun c => !c.notNull))

/-- The schema as the DDL actually has it: identical to the claim except that
`timestamp` carries no index — the only index is the primary key on `id`. -/
def schemaAmended (t : TableSpec) : Bool :=
  (t.columns.map ColumnSpec.name ==
    ["id", "timestamp", "voltage", "current", "frequency"]) &&
  ((getCol t "id").any (fun c => c.autoIncrement && c.notNull)) &&
  (t.primaryKey == ["id"]) &&
  ((getCol t "timestamp").any (fun c => c.hasDefaultNow)) &&
  (!columnIndexed t "timestamp") &&
  (t.indexes == [["id"]]) &&
  ((getCol t "voltage").any (fun c => c.notNull)) &&
  ((getCol t "current").any (fun c => c.notNull)) &&
  ((getCol t "frequency").any (fun c => !c.notNull))

/-- C8 counterexample: the schema claim fails on the `grid_data` DDL, and the
failing conjunct is precisely the `timestamp` index — db/init.sql creates no
index on `timestamp`. -/
theorem schemaAsClaimed_fails_on_grid_data :
    schemaAsClaimed grid_data = false ∧
    columnIndexed grid_data "timestamp" = false := by
  decide

/-- C8 amended: the `grid_data` DDL is the claimed single samples table —
auto-incrementing primary key `id`, `timestamp` defaulting to now, `voltage`
and `current` required, `frequency` optional — except that `timestamp` is not
indexed: the primary-key index on `id` is the only index. -/
theorem schemaAmended_holds_on_grid_data :
    schemaAmended grid_data = true := by
  decide

/-- The `reportContent` state set by `handleGenerateReport` when the backend
responds: the response's `report` text, stored verbatim (App.tsx lines
257-282) — unless the sample list is empty, in which case the handler returns
without requesting anything (App.tsx lines 258-261). -/
def handleGenerateReport (data : List GridData) (report : String) :
    Option String :=
  if data.isEmpty then none else some report

/-- The `__html` value the report dialog hands to `dangerouslySetInnerHTML`
(App.tsx lines 483-504): the dialog opens on a truthy `reportContent`
(`!!reportContent`, so the empty string stays closed) and injects the stored
text with no transformation or sanitization. -/
def reportDialogHtml (reportContent : Option String) : Option String :=
  match reportContent with
  | some r => if r = "" then none else some r
  | none => none

/-- C10: whatever text the external collaborator returns reaches the DOM
verbatim as raw HTML — for every non-empty response and non-empty sample
list, the string handed to `dangerouslySetInnerHTML` is the response itself,
markup included, with no sanitization anywhere on the path. -/
theorem report_injected_verbatim (data : List GridData) (response : String)
    (hdata : data ≠ []) (hresp : response ≠ "") :
    reportDialogHtml (handleGenerateReport data response) = some response := by
  have hne : data.isEmpty = false := by
    cases data with
    | nil => exact absurd rfl hdata
    | cons x xs => rfl
  simp [handleGenerateReport, reportDialogHtml, hne, hresp]

/-- Witness for C10: a response carrying a script tag is handed to
`dangerouslySetInnerHTML` unchanged. -/
theorem report_injected_verbatim_witness :
    reportDialogHtml (handleGenerateReport [sampleA]
      "<h1>Report</h1><script>stealData()</script>") =
    some "<h1>Report</h1><script>stealData()</script>" :=
  report_injected_verbatim [sampleA] _ (by decide) (by decide)

end Eliademo
